/-
  Verification of the release-tooling core of gdementen/releaser.

  The definitions below are a shallow embedding of the pure parts of
  `src/releaser/utils.py` (version-string handling, line patching) and
  `src/releaser/next_release.py` (changelog splicing).  Python strings are
  modelled as Lean `String`s whose character list (`String.data`) plays the
  role of Python's sequence of code points, so Python indices and slices
  become `List.take`/`List.drop` on `String.data`.
-/
import Mathlib

namespace Releaser

/-! ## VersionFormat — `src/releaser/utils.py` -/

/-- `short(rel_name)`: `rel_name[:-2] if rel_name.endswith('.0') else rel_name`. -/
def short (rel_name : String) : String :=
  if ['.', '0'].isSuffixOf rel_name.data then
    ⟨rel_name.data.take (rel_name.data.length - 2)⟩
  else rel_name

/-- The regex `tag ++ "\d+"` matches at the head of `s`: `s` starts with `tag`
followed by at least one decimal digit.  (Python's `\d` also accepts non-ASCII
decimal digits, which release names do not contain; we model ASCII digits.) -/
def patAt (tag s : List Char) : Bool :=
  tag.isPrefixOf s &&
    (match s.drop tag.length with
     | c :: _ => c.isDigit
     | [] => false)

/-- Position of the leftmost match of `tag ++ "\d+"`, scanning from index `i`:
the model of `re.search(tag + '\d+', name).start()`. -/
def findPatFrom (tag : List Char) : List Char → Nat → Option Nat
  | [], _ => none
  | c :: rest, i =>
    if patAt tag (c :: rest) then some i else findPatFrom tag rest (i + 1)

/-- `re.search(tag + '\d+', name)`: start index of the leftmost match, if any. -/
def tagMatchPos (name tag : String) : Option Nat :=
  findPatFrom tag.data name.data 0

/-- The pre-release tags, in the order `pretag_pos` tries them
(`('rc', 'c', 'beta', 'b', 'alpha', 'a')`). -/
def pretags : List String := ["rc", "c", "beta", "b", "alpha", "a"]

/-- `pretag_pos(release_name)`: for each tag in order, `re.search(tag + '\d+')`;
return the start of the first tag's match, else `None`. -/
def pretag_pos (release_name : String) : Option Nat :=
  pretags.findSome? (tagMatchPos release_name)

/-- Some tag pattern `<tag><digits>` occurs at index `p` of `name`
(the "any pattern at this position" predicate used by the spec's reading). -/
def anyTagAt (name : String) (p : Nat) : Bool :=
  pretags.any (fun t => patAt t.data (name.data.drop p))

/-- `strip_pretags(release_name)`: truncate at `pretag_pos` when present. -/
def strip_pretags (release_name : String) : String :=
  match pretag_pos release_name with
  | some pos => ⟨release_name.data.take pos⟩
  | none => release_name

/-- `isprerelease(release_name)`. -/
def isprerelease (release_name : String) : Bool :=
  (pretag_pos release_name).isSome

/-- `long_release_name(release_name)`.  The Python body counts dots, returns
unchanged on `>= 2`, asserts `dotcount == 1` (an `AssertionError` with message
`"{} contains {} dots"` on 0 dots — the spec's `InvalidVersionFormat`), and
otherwise inserts `'.0'` before the pre-release tag or appends it. -/
def long_release_name (release_name : String) : Except String String :=
  let dotcount := release_name.data.count '.'
  if 2 ≤ dotcount then Except.ok release_name
  else if dotcount = 1 then
    match pretag_pos release_name with
    | some pos =>
      Except.ok ⟨release_name.data.take pos ++ ".0".data ++ release_name.data.drop pos⟩
    | none => Except.ok (release_name ++ ".0")
  else Except.error (release_name ++ " contains " ++ toString dotcount ++ " dots")

/-- `relname2fname(release_name)`: `short(strip_pretags(name))`, then
`.replace('.', '_')` (a single-character replacement, hence a character map),
then `"version_{}.rst.inc".format(...)`. -/
def relname2fname (release_name : String) : String :=
  let short_version := short (strip_pretags release_name)
  "version_" ++ ⟨short_version.data.map (fun c => if c = '.' then '_' else c)⟩ ++ ".rst.inc"

/-! ## TextPatcher — `replace_lines` in `src/releaser/utils.py` -/

/-- `sub in line`: Python substring containment, on character lists. -/
def strContainsSub (line sub : String) : Bool :=
  (List.range (line.data.length + 1)).any (fun i => sub.data.isPrefixOf (line.data.drop i))

/-- Python whitespace characters relevant to `str.strip()` (ASCII whitespace
plus the Latin-1 spaces; rarer Unicode space characters are not modelled). -/
def pyIsSpace (c : Char) : Bool :=
  c = ' ' || c = '\t' || c = '\n' || c = '\r' || c = '\u000B' || c = '\u000C' ||
    c = '\u001C' || c = '\u001D' || c = '\u001E' || c = '\u001F' || c = '\u0085' || c = ' '

/-- `line.strip().startswith('#')`: only the leading strip can matter. -/
def strippedStartsHash (line : String) : Bool :=
  match line.data.dropWhile pyIsSpace with
  | '#' :: _ => true
  | _ => false

/-- The inner loop of `replace_lines` for one line: Python iterates over a copy
of the original lines, so both conditions test the *original* `line`, while the
stored line `lines[i]` is overwritten by each matching pair in order. -/
def applyChanges (line : String) (changes : List (String × String)) (endStr : String) : String :=
  changes.foldl
    (fun current c =>
      if strContainsSub line c.1 && !(strippedStartsHash line) then c.2 ++ endStr else current)
    line

/-- `replace_lines(fpath, changes, end)` on the file's line list (file I/O is
read-all / write-all around this pure transformation). -/
def replace_lines (lines : List String) (changes : List (String × String)) (endStr : String) :
    List String :=
  lines.map (fun line => applyChanges line changes endStr)

/-! ## ChangelogEditor — `src/releaser/next_release.py` -/

/-- The line-break characters recognised by Python's `str.splitlines`. -/
def isPyLineBreak (c : Char) : Bool :=
  c = '\n' || c = '\r' || c = '\u000B' || c = '\u000C' ||
    c = '\u001C' || c = '\u001D' || c = '\u001E' || c = '\u0085' ||
    c = ' ' || c = ' '

/-- `str.splitlines(True)` (keepends): accumulate the current line in reverse
in `acc` and flush it after each line-break character.  (Python additionally
treats the two-character sequence `"\r\n"` as a single break; the texts this
development splits never contain `'\r'` — the rendered section text is built
from `'\n'`-terminated literals and, in every theorem below, from strings
hypothesised or checked to be free of line-break characters — so the
single-character rule coincides with Python's on that domain.) -/
def splitlinesKeepAux : List Char → List Char → List String
  | [], acc => if acc.isEmpty then [] else [⟨acc.reverse⟩]
  | c :: rest, acc =>
    if isPyLineBreak c then ⟨acc.reverse ++ [c]⟩ :: splitlinesKeepAux rest []
    else splitlinesKeepAux rest (c :: acc)

/-- `s.splitlines(True)`. -/
def splitlinesKeep (s : String) : List String :=
  splitlinesKeepAux s.data []

/-- `f.readlines()` on a text file whose content is `s` (splitting on `'\n'`,
keeping the newline; universal-newline translation has already happened). -/
def readlinesAux : List Char → List Char → List String
  | [], acc => if acc.isEmpty then [] else [⟨acc.reverse⟩]
  | '\n' :: rest, acc => ⟨acc.reverse ++ ['\n']⟩ :: readlinesAux rest []
  | c :: rest, acc => readlinesAux rest (c :: acc)

/-- `readlines` of a whole file content. -/
def readlines (s : String) : List String :=
  readlinesAux s.data []

/-- `DEFAULT_CHANGELOG_INDEX_TEMPLATE.format(title=..., underline=..., fname=...)`. -/
def default_changelog_index_template (title underline fname : String) : String :=
  title ++ "\n" ++ underline ++ "\n\nIn development.\n\n.. include:: ./changes/" ++
    fname ++ "\n\n\n"

/-- The `this_version` text rendered by `update_changelog` for `release_name`
with the default template: title `"Version {short(release_name)}"`, an
underline of `'='` of the title's length, and `fname = relname2fname(...)`. -/
def renderSection (release_name : String) : String :=
  let title := "Version " ++ short release_name
  default_changelog_index_template title ⟨List.replicate title.data.length '='⟩
    (relname2fname release_name)

/-- The document transformation at the heart of `update_changelog`: read the
lines, and unless line 3 is already the expected title line, splice
`this_version.splitlines(True)` in at position 3 (`lines[3:3] = ...`).
Accessing `lines[3]` of a shorter document raises `IndexError`. -/
def update_changelog_lines (release_name : String) (lines : List String) :
    Except String (List String) :=
  let title := "Version " ++ short release_name
  match lines.get? 3 with
  | none => Except.error "IndexError: list index out of range"
  | some l3 =>
    if l3 = title ++ "\n" then Except.ok lines
    else
      Except.ok (lines.take 3 ++ splitlinesKeep (renderSection release_name) ++ lines.drop 3)

/-- A flat model of the filesystem: an association list from paths to text
contents. -/
structure FileSystem where
  files : List (String × String)
deriving DecidableEq

/-- Look a path up. -/
def FileSystem.read (fs : FileSystem) (p : String) : Option String :=
  (fs.files.find? (fun kv => kv.1 = p)).map (fun kv => kv.2)

/-- Overwrite (or create) a path. -/
def FileSystem.write (fs : FileSystem) (p content : String) : FileSystem :=
  ⟨(p, content) :: fs.files.filter (fun kv => kv.1 != p)⟩

/-- `os.path.join` for the relative paths this code builds. -/
def pathJoin (a b : String) : String := a ++ "/" ++ b

/-- `update_changelog(src_documentation, build_dir, release_name)` with the
default template, modelled on `FileSystem` up to the write-back of
`changes.rst` (the subsequent display, operator prompt and `git add` are
external I/O).  Paths are taken relative to `build_dir` (the function
`chdir`s there first).  With `src_documentation = None`, the copy step is
skipped and `os.path.join(None, 'changes.rst')` raises `TypeError` before any
file is touched. -/
def update_changelog_fs (src_documentation : Option String) (release_name : String)
    (fs : FileSystem) : Except String FileSystem :=
  match src_documentation with
  | none => Except.error "TypeError: os.path.join(None, ...) expected str, not NoneType"
  | some d =>
    let fname := relname2fname release_name
    let changes_dir := pathJoin d "changes"
    let changelog_file := pathJoin changes_dir fname
    match fs.read (pathJoin changes_dir "template.rst.inc") with
    | none => Except.error "IOError: template.rst.inc not found"
    | some tmpl =>
      let fs1 := fs.write changelog_file tmpl
      let fpath := pathJoin d "changes.rst"
      match fs1.read fpath with
      | none => Except.error "FileNotFoundError: changes.rst"
      | some content =>
        let lines := readlines content
        let title := "Version " ++ short release_name
        match lines.get? 3 with
        | none => Except.error "IndexError: list index out of range"
        | some l3 =>
          if l3 = title ++ "\n" then Except.ok fs1
          else
            Except.ok (fs1.write fpath (String.join
              (lines.take 3 ++ splitlinesKeep (renderSection release_name) ++ lines.drop 3)))

/-- The end-to-end scenario document: a 3-line header and one existing
version section. -/
def exampleChangelog : List String :=
  ["Changelog\n", "=========\n", "\n",
   "Version 1.1\n", "===========\n", "\n",
   ".. include:: ./changes/version_1_1.rst.inc\n", "\n", "\n"]

/-- What the code produces for `add_release`'s changelog step on
`exampleChangelog` with release `"1.2"`. -/
def exampleChangelogAfter : List String :=
  ["Changelog\n", "=========\n", "\n",
   "Version 1.2\n", "===========\n", "\n", "In development.\n", "\n",
   ".. include:: ./changes/version_1_2.rst.inc\n", "\n", "\n",
   "Version 1.1\n", "===========\n", "\n",
   ".. include:: ./changes/version_1_1.rst.inc\n", "\n", "\n"]

/-! ## Helper lemmas -/

lemma string_data_append (a b : String) : (a ++ b).data = a.data ++ b.data := rfl

lemma patAt_nil (tag : List Char) : patAt tag [] = false := by
  simp [patAt]

lemma patAt_drop_lt {tag s : List Char} {p : Nat} (h : patAt tag (s.drop p) = true) :
    p < s.length := by
  by_contra hle
  push_neg at hle
  rw [List.drop_eq_nil_of_le hle, patAt_nil] at h
  cases h

lemma findPatFrom_some (tag : List Char) :
    ∀ (s : List Char) (i j : Nat), findPatFrom tag s i = some j →
      i ≤ j ∧ patAt tag (s.drop (j - i)) = true ∧
        ∀ q, q < j - i → patAt tag (s.drop q) = false := by
  intro s
  induction s with
  | nil => intro i j h; simp [findPatFrom] at h
  | cons c rest ih =>
    intro i j h
    rw [findPatFrom] at h
    by_cases hpat : patAt tag (c :: rest) = true
    · simp [hpat] at h
      subst h
      exact ⟨le_refl _, by simpa using hpat, fun q hq => absurd hq (by omega)⟩
    · have hpat' : patAt tag (c :: rest) = false := by
        revert hpat; cases patAt tag (c :: rest) <;> simp
      simp [hpat'] at h
      obtain ⟨h1, h2, h3⟩ := ih (i + 1) j h
      refine ⟨by omega, ?_, ?_⟩
      · have hji : j - i = (j - (i + 1)) + 1 := by omega
        rw [hji, List.drop_succ_cons]
        exact h2
      · intro q hq
        cases q with
        | zero => simpa using hpat'
        | succ k =>
          rw [List.drop_succ_cons]
          exact h3 k (by omega)

lemma findPatFrom_none (tag : List Char) :
    ∀ (s : List Char) (i : Nat), findPatFrom tag s i = none →
      ∀ q, patAt tag (s.drop q) = false := by
  intro s
  induction s with
  | nil => intro i h q; rw [List.drop_nil]; exact patAt_nil tag
  | cons c rest ih =>
    intro i h q
    rw [findPatFrom] at h
    by_cases hpat : patAt tag (c :: rest) = true
    · simp [hpat] at h
    · have hpat' : patAt tag (c :: rest) = false := by
        revert hpat; cases patAt tag (c :: rest) <;> simp
      simp [hpat'] at h
      cases q with
      | zero => simpa using hpat'
      | succ k =>
        rw [List.drop_succ_cons]
        exact ih (i + 1) h k

lemma findSome?_eq_none_forall {α β : Type} (f : α → Option β) :
    ∀ l : List α, l.findSome? f = none → ∀ a ∈ l, f a = none := by
  intro l
  induction l with
  | nil => intro _ a ha; cases ha
  | cons x xs ih =>
    intro h a ha
    rw [List.findSome?_cons] at h
    cases hfx : f x with
    | some b => rw [hfx] at h; cases h
    | none =>
      rw [hfx] at h
      rcases List.mem_cons.mp ha with rfl | ha2
      · exact hfx
      · exact ih h a ha2

lemma findSome?_eq_some_split {α β : Type} (f : α → Option β) :
    ∀ (l : List α) (b : β), l.findSome? f = some b →
      ∃ l1 a l2, l = l1 ++ a :: l2 ∧ f a = some b ∧ ∀ x ∈ l1, f x = none := by
  intro l
  induction l with
  | nil => intro b h; rw [List.findSome?_nil] at h; cases h
  | cons x xs ih =>
    intro b h
    rw [List.findSome?_cons] at h
    cases hfx : f x with
    | some b2 =>
      rw [hfx] at h
      cases h
      exact ⟨[], x, xs, by simp, hfx, by simp⟩
    | none =>
      rw [hfx] at h
      obtain ⟨l1, a, l2, hl, hfa, hnone⟩ := ih b h
      refine ⟨x :: l1, a, l2, by rw [hl]; rfl, hfa, ?_⟩
      intro y hy
      rcases List.mem_cons.mp hy with rfl | hy2
      · exact hfx
      · exact hnone y hy2

lemma pretag_pos_split {name : String} {p : Nat} (h : pretag_pos name = some p) :
    ∃ ts1 t ts2, pretags = ts1 ++ t :: ts2 ∧ tagMatchPos name t = some p ∧
      ∀ t' ∈ ts1, tagMatchPos name t' = none :=
  findSome?_eq_some_split (tagMatchPos name) pretags p h

lemma pretag_pos_lt_length {name : String} {p : Nat} (h : pretag_pos name = some p) :
    p < name.data.length := by
  obtain ⟨ts1, t, ts2, hsplit, hm, hnone⟩ := pretag_pos_split h
  obtain ⟨h1, h2, h3⟩ := findPatFrom_some t.data name.data 0 p hm
  exact patAt_drop_lt (p := p) (by simpa using h2)

lemma splitlinesKeepAux_cons_no_lb {c : Char} (hc : isPyLineBreak c = false)
    (l acc : List Char) :
    splitlinesKeepAux (c :: l) acc = splitlinesKeepAux l (c :: acc) := by
  simp only [splitlinesKeepAux]
  rw [if_neg (by simp [hc])]

lemma splitlinesKeepAux_newline (rest acc : List Char) :
    splitlinesKeepAux ('\n' :: rest) acc = ⟨acc.reverse ++ ['\n']⟩ :: splitlinesKeepAux rest [] := by
  simp only [splitlinesKeepAux]
  rw [if_pos (by decide)]

lemma splitlinesKeepAux_no_lb_append (rest : List Char) :
    ∀ (s acc : List Char), (∀ c ∈ s, isPyLineBreak c = false) →
      splitlinesKeepAux (s ++ rest) acc = splitlinesKeepAux rest (s.reverse ++ acc) := by
  intro s
  induction s with
  | nil => intro acc _; simp
  | cons c s2 ih =>
    intro acc h
    have hc : isPyLineBreak c = false := h c (List.mem_cons_self c s2)
    show splitlinesKeepAux (c :: (s2 ++ rest)) acc = _
    rw [splitlinesKeepAux_cons_no_lb hc]
    rw [ih (c :: acc) (fun x hx => h x (List.mem_cons_of_mem c hx))]
    congr 1
    simp

/-- Splitting a string whose characters are `title`'s (no line break among
them), then `'\n'`, then anything: the first line is `title ++ "\n"`. -/
lemma splitlinesKeep_head (title : String) (xdata : List Char)
    (h : ∀ c ∈ title.data, isPyLineBreak c = false)
    (s : String) (hs : s.data = title.data ++ '\n' :: xdata) :
    splitlinesKeep s = (title ++ "\n") :: splitlinesKeepAux xdata [] := by
  unfold splitlinesKeep
  rw [hs]
  rw [splitlinesKeepAux_no_lb_append ('\n' :: xdata) title.data [] h]
  rw [splitlinesKeepAux_newline]
  congr 1
  have hmk : title ++ "\n" = (⟨title.data ++ ("\n" : String).data⟩ : String) := rfl
  have hn : ("\n" : String).data = ['\n'] := by decide
  rw [hmk, hn]
  congr 1
  simp

/-- The characters of `short rel` all come from `rel`. -/
lemma short_data_subset {c : Char} {rel : String} (h : c ∈ (short rel).data) :
    c ∈ rel.data := by
  unfold short at h
  by_cases hs : (['.', '0'].isSuffixOf rel.data) = true
  · rw [if_pos hs] at h
    exact List.mem_of_mem_take h
  · rw [if_neg hs] at h
    exact h

/-- If the release name has no line-break character, neither has the section
title `"Version " ++ short rel`. -/
lemma title_no_lb (rel : String) (hrel : ∀ c ∈ rel.data, isPyLineBreak c = false) :
    ∀ c ∈ ("Version " ++ short rel).data, isPyLineBreak c = false := by
  intro c hc
  rw [string_data_append] at hc
  rcases List.mem_append.mp hc with h1 | h2
  · have hv : ∀ c ∈ ("Version " : String).data, isPyLineBreak c = false := by decide
    exact hv c h1
  · exact hrel c (short_data_subset h2)

/-- The guard of `update_changelog`: a document whose line 3 is already the
expected title line is returned unchanged. -/
lemma update_changelog_guard (rel : String) (ls : List String)
    (h3 : ls.get? 3 = some (("Version " ++ short rel) ++ "\n")) :
    update_changelog_lines rel ls = Except.ok ls := by
  simp only [update_changelog_lines, h3]
  simp

/-- The first line of the rendered section text is the title line. -/
lemma splitlinesKeep_renderSection_head (rel : String)
    (hrel : ∀ c ∈ rel.data, isPyLineBreak c = false) :
    ∃ t : List String,
      splitlinesKeep (renderSection rel) = (("Version " ++ short rel) ++ "\n") :: t := by
  have hn : ("\n" : String).data = ['\n'] := by decide
  have hdata : (renderSection rel).data = ("Version " ++ short rel).data ++ '\n' ::
      ((⟨List.replicate ("Version " ++ short rel).data.length '='⟩ : String).data ++
        (("\n\nIn development.\n\n.. include:: ./changes/" : String).data ++
          ((relname2fname rel).data ++ ("\n\n\n" : String).data))) := by
    show ((((("Version " ++ short rel) ++ "\n") ++
        (⟨List.replicate ("Version " ++ short rel).data.length '='⟩ : String)) ++
        "\n\nIn development.\n\n.. include:: ./changes/") ++
        relname2fname rel ++ "\n\n\n").data = _
    simp [string_data_append, hn, List.append_assoc]
  exact ⟨_, splitlinesKeep_head ("Version " ++ short rel) _ (title_no_lb rel hrel)
    (renderSection rel) hdata⟩

/-! ## Claims -/

/-- C1: for a release name with exactly one dot, `long_release_name` inserts
the literal `".0"` immediately before the index returned by `pretag_pos` when a
pre-release tag is detected, and appends `".0"` when none is detected; a name
with two or more dots is returned unchanged. -/
theorem long_release_name_one_dot_spec (name : String) :
    (name.data.count '.' = 1 →
      (∀ p, pretag_pos name = some p →
        ∃ u v : String, name = u ++ v ∧ u.data.length = p ∧
          long_release_name name = Except.ok (u ++ ".0" ++ v)) ∧
      (pretag_pos name = none → long_release_name name = Except.ok (name ++ ".0"))) ∧
    (2 ≤ name.data.count '.' → long_release_name name = Except.ok name) := by
  constructor
  · intro hc
    constructor
    · intro p hp
      refine ⟨⟨name.data.take p⟩, ⟨name.data.drop p⟩, ?_, ?_, ?_⟩
      · show name = (⟨name.data.take p ++ name.data.drop p⟩ : String)
        rw [List.take_append_drop]
      · have hlt := pretag_pos_lt_length hp
        show (List.take p name.data).length = p
        rw [List.length_take]
        omega
      · have heq : long_release_name name =
            Except.ok ⟨name.data.take p ++ ".0".data ++ name.data.drop p⟩ := by
          simp only [long_release_name, hc, hp]
          norm_num
        rw [heq]
        exact congrArg Except.ok
          (show (⟨name.data.take p⟩ : String) ++ ".0" ++ ⟨name.data.drop p⟩ =
            ⟨name.data.take p ++ ".0".data ++ name.data.drop p⟩ from rfl).symm
    · intro hnone
      simp only [long_release_name, hc]
      norm_num
      rw [hnone]
  · intro h2
    simp only [long_release_name]
    rw [if_pos h2]

/-- Witness for C1 at `"0.8rc1"` (tag at index 3) and `"1.2.3"` (two dots). -/
theorem long_release_name_one_dot_spec_witness :
    (∃ u v : String, "0.8rc1" = u ++ v ∧ u.data.length = 3 ∧
      long_release_name "0.8rc1" = Except.ok (u ++ ".0" ++ v)) ∧
    long_release_name "1.2.3" = Except.ok "1.2.3" :=
  ⟨((long_release_name_one_dot_spec "0.8rc1").1 (by decide)).1 3 (by decide),
   (long_release_name_one_dot_spec "1.2.3").2 (by decide)⟩

/-- C8: on a release name without any dot, `long_release_name` fails (the
Python `assert dotcount == 1` raises, with the message the spec calls
`InvalidVersionFormat`); it never returns a value. -/
theorem long_release_name_zero_dots_error (name : String)
    (h : name.data.count '.' = 0) :
    long_release_name name =
      Except.error (name ++ " contains " ++ toString (0 : Nat) ++ " dots") ∧
    ∀ r, long_release_name name ≠ Except.ok r := by
  have herr : long_release_name name =
      Except.error (name ++ " contains " ++ toString (0 : Nat) ++ " dots") := by
    simp only [long_release_name, h]
    norm_num
  exact ⟨herr, fun r hr => by rw [herr] at hr; cases hr⟩

/-- Witness for C8 at `"08"`. -/
theorem long_release_name_zero_dots_error_witness :
    long_release_name "08" =
      Except.error ("08" ++ " contains " ++ toString (0 : Nat) ++ " dots") ∧
    ∀ r, long_release_name "08" ≠ Except.ok r :=
  long_release_name_zero_dots_error "08" (by decide)

/-- C9 counterexample: `long_release_name` succeeds on `"0.1.2.3"` and returns
it unchanged with 3 dots, so the result does not always contain exactly 2
dots. -/
theorem long_release_name_three_dots :
    long_release_name "0.1.2.3" = Except.ok "0.1.2.3" ∧
    "0.1.2.3".data.count '.' = 3 ∧ ¬ ("0.1.2.3".data.count '.' = 2) :=
  ⟨rfl, by decide, by decide⟩

/-- C9 amended: when `long_release_name` succeeds, the result has
`max 2 d` dots, `d` being the input's dot count — exactly 2 when the input has
one or two dots, and the input's count unchanged when it has three or more. -/
theorem long_release_name_dot_count (name r : String)
    (h : long_release_name name = Except.ok r) :
    r.data.count '.' = max 2 (name.data.count '.') := by
  by_cases h2 : 2 ≤ name.data.count '.'
  · have heq : long_release_name name = Except.ok name := by
      simp only [long_release_name]
      rw [if_pos h2]
    rw [heq] at h
    cases h
    omega
  · by_cases h1 : name.data.count '.' = 1
    · cases hp : pretag_pos name with
      | some pos =>
        have heq : long_release_name name =
            Except.ok ⟨name.data.take pos ++ ".0".data ++ name.data.drop pos⟩ := by
          simp only [long_release_name, h1]
          norm_num
          rw [hp]
        rw [heq] at h
        cases h
        have hsum : (name.data.take pos).count '.' + (name.data.drop pos).count '.' = 1 := by
          have hta := congrArg (List.count '.') (List.take_append_drop pos name.data)
          rw [List.count_append] at hta
          rw [hta, h1]
        have hdot : (".0".data.count '.') = 1 := by decide
        show (name.data.take pos ++ ".0".data ++ name.data.drop pos).count '.' =
          max 2 (name.data.count '.')
        rw [List.count_append, List.count_append, hdot, h1]
        omega
      | none =>
        have heq : long_release_name name = Except.ok (name ++ ".0") := by
          simp only [long_release_name, h1]
          norm_num
          rw [hp]
        rw [heq] at h
        cases h
        rw [string_data_append, List.count_append, h1]
        decide
    · have h0 : name.data.count '.' = 0 := by omega
      simp only [long_release_name, h0] at h
      norm_num at h
      exact Except.noConfusion h

/-- Witness for C9's amended theorem at `"0.8"`. -/
theorem long_release_name_dot_count_witness :
    "0.8.0".data.count '.' = max 2 ("0.8".data.count '.') :=
  long_release_name_dot_count "0.8" "0.8.0" rfl

/-- C2 counterexample: on `"0.8b1rc2"`, `pretag_pos` returns 5 (the leftmost
`rc` match), although a tag pattern (`b` followed by digits) occurs at index 3;
indices 0–2 carry no pattern, so the leftmost occurrence of any pattern is 3,
not the returned 5. -/
theorem pretag_pos_not_leftmost_any :
    pretag_pos "0.8b1rc2" = some 5 ∧ anyTagAt "0.8b1rc2" 3 = true ∧
    anyTagAt "0.8b1rc2" 0 = false ∧ anyTagAt "0.8b1rc2" 1 = false ∧
    anyTagAt "0.8b1rc2" 2 = false ∧ ¬ (5 ≤ 3) :=
  ⟨by decide, by decide, by decide, by decide, by decide, by decide⟩

/-- C2 amended: `pretag_pos` returns `none` exactly when no tag pattern
occurs; when it returns `some p`, `p` is the start of the leftmost occurrence
of the *first* tag in the precedence order `rc, c, beta, b, alpha, a` that
matches anywhere in the name (not the leftmost occurrence over all tags). -/
theorem pretag_pos_first_tag_leftmost (name : String) :
    (pretag_pos name = none →
      ∀ t ∈ pretags, ∀ q, patAt t.data (name.data.drop q) = false) ∧
    (∀ p, pretag_pos name = some p →
      ∃ ts1 t ts2, pretags = ts1 ++ t :: ts2 ∧
        patAt t.data (name.data.drop p) = true ∧
        (∀ q, q < p → patAt t.data (name.data.drop q) = false) ∧
        (∀ t' ∈ ts1, ∀ q, patAt t'.data (name.data.drop q) = false)) := by
  constructor
  · intro h t ht q
    have hnone := findSome?_eq_none_forall (tagMatchPos name) pretags h t ht
    exact findPatFrom_none t.data name.data 0 hnone q
  · intro p hp
    obtain ⟨ts1, t, ts2, hsplit, hm, hnone⟩ := pretag_pos_split hp
    obtain ⟨h0, h2, h3⟩ := findPatFrom_some t.data name.data 0 p hm
    refine ⟨ts1, t, ts2, hsplit, by simpa using h2, ?_, ?_⟩
    · intro q hq
      exact h3 q (by omega)
    · intro t' ht' q
      exact findPatFrom_none t'.data name.data 0 (hnone t' ht') q

/-- Witness for C2's amended theorem at `"0.8.1rc1"` (tag `rc` at index 5). -/
theorem pretag_pos_first_tag_leftmost_witness :
    ∃ ts1 t ts2, pretags = ts1 ++ t :: ts2 ∧
      patAt t.data ("0.8.1rc1".data.drop 5) = true ∧
      (∀ q, q < 5 → patAt t.data ("0.8.1rc1".data.drop q) = false) ∧
      (∀ t' ∈ ts1, ∀ q, patAt t'.data ("0.8.1rc1".data.drop q) = false) :=
  (pretag_pos_first_tag_leftmost "0.8.1rc1").2 5 (by decide)

/-- Helper: `strip_pretags` is the identity on tag-free names. -/
lemma strip_pretags_of_none {x : String} (h : pretag_pos x = none) :
    strip_pretags x = x := by
  unfold strip_pretags
  rw [h]

/-- C5 counterexample: `strip_pretags` is not idempotent (`"0.8b1rc2"` strips
to `"0.8b1"`, which still carries the tag `b1`), so
`relname2fname(name) == relname2fname(strip_pretags(name))` fails there. -/
theorem relname2fname_strip_diff :
    relname2fname "0.8b1rc2" = "version_0_8b1.rst.inc" ∧
    strip_pretags "0.8b1rc2" = "0.8b1" ∧
    relname2fname (strip_pretags "0.8b1rc2") = "version_0_8.rst.inc" ∧
    relname2fname "0.8b1rc2" ≠ relname2fname (strip_pretags "0.8b1rc2") :=
  ⟨by decide, by decide, by decide, by decide⟩

/-- C5 amended: `relname2fname` computes `short(strip_pretags(name))`,
replaces every dot by an underscore and wraps it as
`version_{...}.rst.inc`; the two spec examples hold; and
`relname2fname(name) == relname2fname(strip_pretags(name))` holds whenever the
stripped name carries no further tag pattern. -/
theorem relname2fname_spec (name : String)
    (h : pretag_pos (strip_pretags name) = none) :
    relname2fname name =
      "version_" ++ ⟨(short (strip_pretags name)).data.map
        (fun c => if c = '.' then '_' else c)⟩ ++ ".rst.inc" ∧
    relname2fname "0.8.0" = "version_0_8.rst.inc" ∧
    relname2fname "0.8.1rc1" = "version_0_8_1.rst.inc" ∧
    relname2fname name = relname2fname (strip_pretags name) := by
  refine ⟨rfl, by decide, by decide, ?_⟩
  rw [relname2fname, relname2fname, strip_pretags_of_none h]

/-- Witness for C5's amended theorem at `"0.8.1rc1"`. -/
theorem relname2fname_spec_witness :
    relname2fname "0.8.1rc1" =
      "version_" ++ ⟨(short (strip_pretags "0.8.1rc1")).data.map
        (fun c => if c = '.' then '_' else c)⟩ ++ ".rst.inc" ∧
    relname2fname "0.8.0" = "version_0_8.rst.inc" ∧
    relname2fname "0.8.1rc1" = "version_0_8_1.rst.inc" ∧
    relname2fname "0.8.1rc1" = relname2fname (strip_pretags "0.8.1rc1") :=
  relname2fname_spec "0.8.1rc1" (by decide)

/-- Helper for C7: a line for which every pair's condition is false is left
as-is by the inner loop of `replace_lines`. -/
lemma applyChanges_id (line endStr : String) :
    ∀ changes : List (String × String),
      (∀ c ∈ changes, (strContainsSub line c.1 && !(strippedStartsHash line)) = false) →
      applyChanges line changes endStr = line := by
  intro changes
  induction changes with
  | nil => intro _; rfl
  | cons c cs ih =>
    intro h
    have hc := h c (List.mem_cons_self c cs)
    have hrest : ∀ x ∈ cs, (strContainsSub line x.1 && !(strippedStartsHash line)) = false :=
      fun x hx => h x (List.mem_cons_of_mem c hx)
    have ih2 := ih hrest
    unfold applyChanges at ih2 ⊢
    rw [List.foldl_cons]
    simpa [hc] using ih2

/-- C7: `replace_lines` leaves a line unchanged (verbatim, original ending
included, at its original position) whenever its stripped form starts with
`'#'`, or none of the target substrings occurs in it. -/
theorem replace_lines_untouched (lines : List String) (changes : List (String × String))
    (endStr : String) (i : Nat) (line : String)
    (hl : lines.get? i = some line)
    (h : strippedStartsHash line = true ∨ ∀ c ∈ changes, strContainsSub line c.1 = false) :
    (replace_lines lines changes endStr).get? i = some line := by
  have hid : applyChanges line changes endStr = line := by
    apply applyChanges_id
    intro c hc
    cases h with
    | inl hh => simp [hh]
    | inr hh => simp [hh c hc]
  unfold replace_lines
  rw [List.get?_map, hl]
  simp [hid]

/-- Witness for C7: a commented-out line containing the target substring
survives `replace_lines` unchanged. -/
theorem replace_lines_untouched_witness :
    (replace_lines ["# version = 1\n", "version = 1\n"]
      [("version", "version = 2")] "\n").get? 0 = some "# version = 1\n" :=
  replace_lines_untouched ["# version = 1\n", "version = 1\n"]
    [("version", "version = 2")] "\n" 0 "# version = 1\n" rfl (Or.inl (by decide))

/-- C3: if line 3 of the document already equals the expected title line,
`update_changelog` leaves the document unchanged, and consequently running the
splice twice with one release name performs it only once (the release name,
per the data model, contains no line-break character). -/
theorem update_changelog_idempotent (release_name : String) (lines : List String)
    (hrel : ∀ c ∈ release_name.data, isPyLineBreak c = false) :
    (lines.get? 3 = some (("Version " ++ short release_name) ++ "\n") →
      update_changelog_lines release_name lines = Except.ok lines) ∧
    (∀ lines2, update_changelog_lines release_name lines = Except.ok lines2 →
      update_changelog_lines release_name lines2 = Except.ok lines2) := by
  refine ⟨update_changelog_guard release_name lines, ?_⟩
  intro lines2 h
  cases h3 : lines.get? 3 with
  | none =>
    simp only [update_changelog_lines, h3] at h
    exact Except.noConfusion h
  | some l3 =>
    by_cases heq : l3 = ("Version " ++ short release_name) ++ "\n"
    · simp only [update_changelog_lines, h3] at h
      rw [if_pos heq] at h
      cases h
      exact update_changelog_guard release_name lines (by rw [h3, heq])
    · simp only [update_changelog_lines, h3] at h
      rw [if_neg heq] at h
      cases h
      apply update_changelog_guard
      have hlen3 : (lines.take 3).length = 3 := by
        obtain ⟨hlt, _⟩ := List.get?_eq_some.mp h3
        rw [List.length_take]
        omega
      obtain ⟨t, ht⟩ := splitlinesKeep_renderSection_head release_name hrel
      rw [ht, List.append_assoc, List.cons_append]
      rw [List.get?_append_right (le_of_eq hlen3)]
      rw [hlen3]
      simp

/-- Witness for C3: a document whose line 3 is already `"Version 1.2\n"`
passes through unchanged. -/
theorem update_changelog_idempotent_witness :
    update_changelog_lines "1.2" ["a\n", "b\n", "c\n", "Version 1.2\n", "x\n"] =
      Except.ok ["a\n", "b\n", "c\n", "Version 1.2\n", "x\n"] :=
  (update_changelog_idempotent "1.2" ["a\n", "b\n", "c\n", "Version 1.2\n", "x\n"]
    (by decide)).1 (by decide)

/-- C4: when the expected title is not at line 3, `update_changelog` splices
the rendered section's lines in at index 3: the 3 header lines are unchanged
and every pre-existing line from index 3 on reappears, in order, immediately
after the inserted section. -/
theorem update_changelog_splice_frame (release_name : String) (lines lines2 : List String)
    (l3 : String) (h3 : lines.get? 3 = some l3)
    (hne : l3 ≠ ("Version " ++ short release_name) ++ "\n")
    (h : update_changelog_lines release_name lines = Except.ok lines2) :
    lines2 = lines.take 3 ++ splitlinesKeep (renderSection release_name) ++ lines.drop 3 ∧
    lines2.take 3 = lines.take 3 ∧
    lines2.drop (3 + (splitlinesKeep (renderSection release_name)).length) = lines.drop 3 := by
  have hlen3 : (lines.take 3).length = 3 := by
    obtain ⟨hlt, _⟩ := List.get?_eq_some.mp h3
    rw [List.length_take]
    omega
  simp only [update_changelog_lines, h3] at h
  rw [if_neg hne] at h
  cases h
  refine ⟨rfl, ?_, ?_⟩
  · rw [List.append_assoc]
    exact List.take_left' hlen3
  · exact List.drop_left' (by rw [List.length_append, hlen3])

/-- Witness for C4 on a concrete 4-line document and release `"1.2"`. -/
theorem update_changelog_splice_frame_witness :
    (["h1\n", "h2\n", "h3\n", "Version 1.2\n", "===========\n", "\n", "In development.\n",
      "\n", ".. include:: ./changes/version_1_2.rst.inc\n", "\n", "\n", "old\n"] : List String) =
      (["h1\n", "h2\n", "h3\n", "old\n"] : List String).take 3 ++
        splitlinesKeep (renderSection "1.2") ++
        (["h1\n", "h2\n", "h3\n", "old\n"] : List String).drop 3 ∧
    (["h1\n", "h2\n", "h3\n", "Version 1.2\n", "===========\n", "\n", "In development.\n",
      "\n", ".. include:: ./changes/version_1_2.rst.inc\n", "\n", "\n", "old\n"] :
        List String).take 3 = (["h1\n", "h2\n", "h3\n", "old\n"] : List String).take 3 ∧
    (["h1\n", "h2\n", "h3\n", "Version 1.2\n", "===========\n", "\n", "In development.\n",
      "\n", ".. include:: ./changes/version_1_2.rst.inc\n", "\n", "\n", "old\n"] :
        List String).drop (3 + (splitlinesKeep (renderSection "1.2")).length) =
      (["h1\n", "h2\n", "h3\n", "old\n"] : List String).drop 3 :=
  update_changelog_splice_frame "1.2" ["h1\n", "h2\n", "h3\n", "old\n"]
    ["h1\n", "h2\n", "h3\n", "Version 1.2\n", "===========\n", "\n", "In development.\n",
     "\n", ".. include:: ./changes/version_1_2.rst.inc\n", "\n", "\n", "old\n"]
    "old\n" rfl (by decide) rfl

/-- C6 counterexample: in the end-to-end scenario for release `"1.2"` the
inserted underline is `"="` repeated 11 times (`len("Version 1.2") == 11`),
not the 12 the claim states. -/
theorem update_changelog_example_underline :
    update_changelog_lines "1.2" exampleChangelog = Except.ok exampleChangelogAfter ∧
    exampleChangelogAfter.get? 4 = some ⟨List.replicate 11 '=' ++ ['\n']⟩ ∧
    ("Version 1.2" : String).data.length = 11 ∧
    ¬ exampleChangelogAfter.get? 4 = some ⟨List.replicate 12 '=' ++ ['\n']⟩ :=
  ⟨rfl, by decide, by decide, by decide⟩

/-- C6 amended: adding release `"1.2"` to a changelog with a 3-line header and
one existing section inserts a section titled `"Version 1.2"`, underlined with
`'='` repeated to the title's length (11 characters), referencing
`version_1_2.rst.inc`, immediately above the pre-existing section. -/
theorem update_changelog_example_section :
    update_changelog_lines "1.2" exampleChangelog = Except.ok exampleChangelogAfter ∧
    exampleChangelogAfter.take 3 = exampleChangelog.take 3 ∧
    exampleChangelogAfter.get? 3 = some "Version 1.2\n" ∧
    exampleChangelogAfter.get? 4 =
      some ⟨List.replicate ("Version 1.2" : String).data.length '=' ++ ['\n']⟩ ∧
    exampleChangelogAfter.get? 8 = some ".. include:: ./changes/version_1_2.rst.inc\n" ∧
    exampleChangelogAfter.drop 11 = exampleChangelog.drop 3 :=
  ⟨rfl, by decide, by decide, by decide, by decide, by decide⟩

/-- C10: called with `src_documentation = None` (the default `add_release`
passes through), `update_changelog` fails before touching any file —
`os.path.join(None, 'changes.rst')` raises `TypeError` — so no state changes
on this path. -/
theorem update_changelog_none_fails (release_name : String) (fs : FileSystem) :
    update_changelog_fs none release_name fs =
      Except.error "TypeError: os.path.join(None, ...) expected str, not NoneType" ∧
    ∀ fs2, update_changelog_fs none release_name fs ≠ Except.ok fs2 := by
  refine ⟨rfl, fun fs2 hc => ?_⟩
  rw [show update_changelog_fs none release_name fs =
    Except.error "TypeError: os.path.join(None, ...) expected str, not NoneType"
    from rfl] at hc
  exact Except.noConfusion hc

example : short "1.0" = "1" := by decide
example : short "1.10" = "1.10" := by decide
example : pretag_pos "0.8" = none := by decide
example : pretag_pos "0.8alpha25" = some 3 := by decide
example : pretag_pos "0.8.1rc1" = some 5 := by decide
example : pretag_pos "0.8beta1" = some 3 := by decide
example : long_release_name "0.8" = Except.ok "0.8.0" := rfl
example : long_release_name "0.8.0" = Except.ok "0.8.0" := rfl
example : long_release_name "0.8rc1" = Except.ok "0.8.0rc1" := rfl
example : long_release_name "0.8.0rc1" = Except.ok "0.8.0rc1" := rfl
example : strip_pretags "0.8alpha25" = "0.8" := by decide
example : relname2fname "0.8.0" = "version_0_8.rst.inc" := by decide
example : relname2fname "0.8.1rc1" = "version_0_8_1.rst.inc" := by decide
example : splitlinesKeep "ab\ncd\ne" = ["ab\n", "cd\n", "e"] := by decide
example : readlines "ab\ncd\n" = ["ab\n", "cd\n"] := by decide
example : splitlinesKeep (renderSection "1.2") =
    ["Version 1.2\n", "===========\n", "\n", "In development.\n", "\n",
     ".. include:: ./changes/version_1_2.rst.inc\n", "\n", "\n"] := by decide
example : update_changelog_lines "1.2"
    ["Changelog\n", "=========\n", "\n", "Version 1.1\n"] =
    Except.ok (["Changelog\n", "=========\n", "\n"] ++
      splitlinesKeep (renderSection "1.2") ++ ["Version 1.1\n"]) := rfl

end Releaser
